import Mathlib

/-!
Shallow embedding of `src/validator.js` (openbadges-backpack validator).

The JavaScript regexes are embedded through a small executable
regular-expression engine (Brzozowski derivatives).  JavaScript values
relevant to the validator (strings, numbers, booleans, `null`,
`undefined`, plain objects) are modelled by the inductive type `JSValue`;
a thrown exception inside a validator is modelled as the validator
returning `some message` (the exception's `.message` string), mirroring
the `try { validator(..) } catch (e) { err[k] = e.message }` loop of
`model.prototype.errors`.
-/

namespace OpenBadges

/-- Regular expressions over `Char`, with character classes given by a
Boolean predicate.  Used to embed the JavaScript regex literals of
`src/validator.js`. -/
inductive Regex where
  | emp : Regex
  | eps : Regex
  | cls (p : Char → Bool) : Regex
  | cat (r s : Regex) : Regex
  | alt (r s : Regex) : Regex
  | star (r : Regex) : Regex

/-- Does the regex accept the empty string? -/
def Regex.nullable : Regex → Bool
  | .emp => false
  | .eps => true
  | .cls _ => false
  | .cat r s => r.nullable && s.nullable
  | .alt r s => r.nullable || s.nullable
  | .star _ => true

/-- Smart alternation constructor (simplifies the `emp` unit). -/
def Regex.mkAlt : Regex → Regex → Regex
  | .emp, s => s
  | r, .emp => r
  | r, s => .alt r s

/-- Smart concatenation constructor (simplifies `emp` and `eps`). -/
def Regex.mkCat : Regex → Regex → Regex
  | .emp, _ => .emp
  | _, .emp => .emp
  | .eps, s => s
  | r, .eps => r
  | r, s => .cat r s

/-- Brzozowski derivative of a regex by a character. -/
def Regex.deriv (c : Char) : Regex → Regex
  | .emp => .emp
  | .eps => .emp
  | .cls p => if p c then .eps else .emp
  | .cat r s =>
      if r.nullable then .mkAlt (.mkCat (r.deriv c) s) (s.deriv c)
      else .mkCat (r.deriv c) s
  | .alt r s => .mkAlt (r.deriv c) (s.deriv c)
  | .star r => .mkCat (r.deriv c) (.star r)

/-- Does the regex match the whole character list? -/
def Regex.rmatch : Regex → List Char → Bool
  | r, [] => r.nullable
  | r, c :: cs => (r.deriv c).rmatch cs

/-- Postfix `r+` (one or more). -/
def Regex.plus (r : Regex) : Regex := .cat r (.star r)

/-- Postfix `r?` (zero or one). -/
def Regex.quest (r : Regex) : Regex := .alt r .eps

/-- A single literal character, given by its code point. -/
def Regex.chr (n : Nat) : Regex := .cls (fun c => c.toNat == n)

/-- A literal string of characters. -/
def Regex.strLit (s : String) : Regex :=
  s.data.foldr (fun c r => .cat (Regex.chr c.toNat) r) .eps

/-- Matches any single character. -/
def Regex.anyChar : Regex := .cls (fun _ => true)

/-- A JavaScript regex literal as used in the source: the regex body plus
whether the body is anchored with `^...$` (both URL regexes are; the email
and Badge-version regexes are unanchored). -/
structure JSRegex where
  ast : Regex
  anchored : Bool

/-- JavaScript `RegExp.prototype.test`: for an anchored `^...$` pattern it
is a full match; for an unanchored pattern it asks whether some substring
matches the body. -/
def JSRegex.test (r : JSRegex) (s : String) : Bool :=
  if r.anchored then r.ast.rmatch s.data
  else (Regex.cat (.star .anyChar) (.cat r.ast (.star .anyChar))).rmatch s.data

/-- The JavaScript values the validator can encounter: `undefined`,
`null`, strings, (integer) numbers, booleans and plain objects. -/
inductive JSValue where
  | undefined : JSValue
  | null : JSValue
  | str (s : String) : JSValue
  | num (n : Int) : JSValue
  | bool (b : Bool) : JSValue
  | obj (props : List (String × JSValue)) : JSValue

/-- JavaScript truthiness test `!v` (negated): `undefined`, `null`, `""`,
`0` and `false` are falsy; every object is truthy. -/
def falsy : JSValue → Bool
  | .undefined => true
  | .null => true
  | .str s => s.isEmpty
  | .num n => n == 0
  | .bool b => !b
  | .obj _ => false

/-- JavaScript `String(v)` coercion, applied implicitly by
`RegExp.prototype.test` and `Date.parse` to non-string arguments. -/
def jsToString : JSValue → String
  | .undefined => "undefined"
  | .null => "null"
  | .str s => s
  | .num n => toString n
  | .bool b => if b then "true" else "false"
  | .obj _ => "[object Object]"

/-! ## Character classes of the source's regex literals -/

/-- Class `[a-z]`. -/
def lowerAlpha (c : Char) : Bool := 97 ≤ c.toNat && c.toNat ≤ 122

/-- Class `[0-9]` (that is, `\d`). -/
def digitCh (c : Char) : Bool := 48 ≤ c.toNat && c.toNat ≤ 57

/-- The symbol part of the email local-part class
`[a-z0-9!#$%&'*+/=?^_`{|}~-]` (codes for `! # $ % & ' * + / = ? ^ _`,
backtick, left brace, pipe, right brace, tilde, hyphen). -/
def emailSym (c : Char) : Bool :=
  [33, 35, 36, 37, 38, 39, 42, 43, 47, 61, 63, 94, 95, 96,
   123, 124, 125, 126, 45].contains c.toNat

/-- One character of the email local-part atom class. -/
def emailAtomChar (c : Char) : Bool := lowerAlpha c || digitCh c || emailSym c

/-- Class `[a-z0-9]`. -/
def alnumLower (c : Char) : Bool := lowerAlpha c || digitCh c

/-- Class `[a-z0-9-]`. -/
def alnumHyphen (c : Char) : Bool := alnumLower c || c.toNat == 45

/-- JavaScript `\s` (whitespace class): tab, LF, VT, FF, CR, space, NBSP,
Ogham space, the U+2000–U+200A range, LS, PS, NNBSP, MMSP, ideographic
space and the BOM. -/
def jsSpace (c : Char) : Bool :=
  [9, 10, 11, 12, 13, 32, 160, 5760, 8232, 8233, 8239, 8287,
   12288, 65279].contains c.toNat || (8192 ≤ c.toNat && c.toNat ≤ 8202)

/-- JavaScript `.` (without the `s` flag): any character that is not a
line terminator (LF, CR, LS, PS). -/
def jsDot (c : Char) : Bool := !([10, 13, 8232, 8233].contains c.toNat)

/-! ## The regex literals (lines 43, 52, 53, 76 of `src/validator.js`) -/

/-- One DNS label of the email regex: `[a-z0-9](?:[a-z0-9-]*[a-z0-9])?`. -/
def dnsLabel : Regex :=
  .cat (.cls alnumLower)
    (.quest (.cat (.star (.cls alnumHyphen)) (.cls alnumLower)))

/-- The email regex of line 43 (unanchored, no `i` flag):
`[a-z0-9!#$%&'*+/=?^_`{|}~-]+(?:\.[a-z0-9!#$%&'*+/=?^_`{|}~-]+)*@(?:[a-z0-9](?:[a-z0-9-]*[a-z0-9])?\.)+[a-z0-9](?:[a-z0-9-]*[a-z0-9])?`. -/
def emailRegex : JSRegex :=
  { ast :=
      .cat
        (.cat (Regex.plus (.cls emailAtomChar))
          (.star (.cat (Regex.chr 46) (Regex.plus (.cls emailAtomChar)))))
        (.cat (Regex.chr 64)
          (.cat (Regex.plus (.cat dnsLabel (Regex.chr 46))) dnsLabel)),
    anchored := false }

/-- The absolute-URL regex of line 52: `^(https?):\/\/[^\s\/$.?#].[^\s]*$`. -/
def fq_url : JSRegex :=
  { ast :=
      .cat (Regex.strLit "http")
        (.cat (Regex.quest (Regex.chr 115))
          (.cat (Regex.strLit "://")
            (.cat (.cls (fun c => !jsSpace c && !([47, 36, 46, 63, 35].contains c.toNat)))
              (.cat (.cls jsDot) (.star (.cls (fun c => !jsSpace c))))))),
    anchored := true }

/-- The root-relative URL regex of line 53: `^\/\S+$`. -/
def local_url : JSRegex :=
  { ast := .cat (Regex.chr 47) (Regex.plus (.cls (fun c => !jsSpace c))),
    anchored := true }

/-- The Badge `version` regex of line 76: `v?\d+\.\d+\.d+` (unanchored;
its third segment is the literal letter `d` repeated, as in the source). -/
def versionRegex : JSRegex :=
  { ast :=
      .cat (Regex.quest (Regex.chr 118))
        (.cat (Regex.plus (.cls digitCh))
          (.cat (Regex.chr 46)
            (.cat (Regex.plus (.cls digitCh))
              (.cat (Regex.chr 46) (Regex.plus (Regex.chr 100)))))),
    anchored := false }

/-! ## Model of `Date.parse` (platform function used by `ISODate`) -/

/-- Reads exactly `n` decimal digits from the front of `cs`, returning
their value and the rest of the input. -/
def parseFixedDigits (n : Nat) (cs : List Char) : Option (Nat × List Char) :=
  let pre := cs.take n
  if pre.length == n && pre.all digitCh then
    some (pre.foldl (fun a c => a * 10 + (c.toNat - 48)) 0, cs.drop n)
  else none

/-- Gregorian leap-year test. -/
def isLeap (y : Nat) : Bool := (y % 4 == 0 && y % 100 != 0) || y % 400 == 0

/-- Number of days in a month of a given year. -/
def daysInMonth (y m : Nat) : Nat :=
  if m == 2 then (if isLeap y then 29 else 28)
  else if [4, 6, 9, 11].contains m then 30 else 31

/-- Consumes an optional fractional-seconds part `.` followed by digits. -/
def parseFrac : List Char → Option (List Char)
  | [] => some []
  | c :: cs =>
      if c.toNat == 46 then
        match parseFixedDigits 3 cs with
        | some (_, rest) => some rest
        | none => none
      else some (c :: cs)

/-- Consumes the time part `HH:MM[:SS[.sss]]` and checks its ranges. -/
def parseTimePart (cs : List Char) : Option (List Char) :=
  match parseFixedDigits 2 cs with
  | none => none
  | some (h, cs1) =>
    match cs1 with
    | c :: cs2 =>
      if c.toNat == 58 then
        match parseFixedDigits 2 cs2 with
        | none => none
        | some (mi, cs3) =>
          if h ≤ 23 && mi ≤ 59 then
            match cs3 with
            | c2 :: cs4 =>
              if c2.toNat == 58 then
                match parseFixedDigits 2 cs4 with
                | none => none
                | some (se, cs5) => if se ≤ 59 then parseFrac cs5 else none
              else some (c2 :: cs4)
            | [] => some []
          else none
      else none
    | [] => none

/-- Models the ECMAScript `Date.parse` Date Time String Format on the
string coercion of the input: `YYYY[-MM[-DD]][THH:MM[:SS[.sss]]][Z]`,
with calendar range checks; any other string is treated as unparseable
(`NaN`).  Returns `true` exactly when the parse succeeds, which is when
`isNaN(new Date(Date.parse(input)).getDate())` is `false` in the source
(line 38): `getDate()` of a successfully parsed date is never `NaN`. -/
def dateParseOk (s : String) : Bool :=
  match parseFixedDigits 4 s.data with
  | none => false
  | some (y, cs1) =>
    let afterDate : Option (List Char) :=
      match cs1 with
      | c :: cs2 =>
        if c.toNat == 45 then
          match parseFixedDigits 2 cs2 with
          | none => none
          | some (mo, cs3) =>
            if 1 ≤ mo && mo ≤ 12 then
              match cs3 with
              | c2 :: cs4 =>
                if c2.toNat == 45 then
                  match parseFixedDigits 2 cs4 with
                  | none => none
                  | some (d, cs5) =>
                    if 1 ≤ d && d ≤ daysInMonth y mo then some cs5 else none
                else some (c2 :: cs4)
              | [] => some []
            else none
        else some (c :: cs1)
      | [] => some []
    match afterDate with
    | none => false
    | some rest =>
      match rest with
      | [] => true
      | c :: cs =>
        if c.toNat == 84 then
          match parseTimePart cs with
          | none => false
          | some [] => true
          | some (z :: zs) => z.toNat == 90 && zs.isEmpty
        else false

/-! ## Validators (lines 27–58 of `src/validator.js`)

A validator either returns normally (`none`) or throws; a thrown
exception is modelled as `some message` where `message` is the
exception's `.message` string.  `ValidationError(type)` (line 27) builds
an `Error` whose `.message` is `type`, so a `throw new
ValidationError('regexp')` surfaces here as `some "regexp"`. -/

/-- The type of an embedded validator function. -/
abbrev ValidatorFn := OpenBadges.JSValue → Option String

/-- An apostrophe character as a string (code point 39). -/
def apostrophe : String := String.singleton (Char.ofNat 39)

/-- The V8 `TypeError` message thrown when `input.length` is read from
`undefined` (as `MaxLength` does on line 48 for an absent value). -/
def typeErrorUndefinedLength : String :=
  "Cannot read properties of undefined (reading " ++ apostrophe
    ++ "length" ++ apostrophe ++ ")"

/-- The V8 `TypeError` message thrown when `input.length` is read from
`null`. -/
def typeErrorNullLength : String :=
  "Cannot read properties of null (reading " ++ apostrophe
    ++ "length" ++ apostrophe ++ ")"

/-- Lines 30–34: `RegEx(regex)` returns a validator that throws
`ValidationError('regexp')` when `regex.test(input)` is false
(`test` coerces its argument to a string). -/
def RegEx (regex : JSRegex) : ValidatorFn := fun input =>
  if regex.test (jsToString input) then none else some "regexp"

/-- Lines 35–40: `ISODate()` returns a validator that throws
`ValidationError('isodate')` when `Date.parse` of the (stringified)
input fails, i.e. when `new Date(Date.parse(input)).getDate()` is `NaN`. -/
def ISODate : ValidatorFn := fun input =>
  if dateParseOk (jsToString input) then none else some "isodate"

/-- Lines 41–45: `Email()` is `RegEx` applied to the email regex. -/
def Email : ValidatorFn := RegEx emailRegex

/-- Lines 46–50: `MaxLength(len)` throws `ValidationError('length')` when
`input.length > len`.  On `undefined`/`null` the property read itself
throws a `TypeError`; on numbers, booleans and plain objects `.length`
is `undefined` and `undefined > len` is false, so nothing is thrown.
JavaScript string `.length` counts UTF-16 code units, which coincides
with `String.length` on the ASCII data used throughout. -/
def MaxLength (len : Nat) : ValidatorFn := fun input =>
  match input with
  | .undefined => some typeErrorUndefinedLength
  | .null => some typeErrorNullLength
  | .str s => if s.length > len then some "length" else none
  | .num _ => none
  | .bool _ => none
  | .obj _ => none

/-- Lines 51–58: `URL()` tries the absolute regex; if that throws, the
`catch` block runs the relative regex, whose own failure propagates. -/
def URL : ValidatorFn := fun input =>
  match RegEx fq_url input with
  | none => none
  | some _ => RegEx local_url input

/-! ## Fields, records and the model evaluation procedure (lines 1–25, 60–62) -/

/-- Line 60: a field descriptor pairs the required flag with the
validator list. -/
structure FieldDesc where
  required : Bool
  validators : List ValidatorFn

/-- Line 60: `field(required, validators)`. -/
def field (req : Bool) (validators : List ValidatorFn) : FieldDesc :=
  { required := req, validators := validators }

/-- Line 61: `required(...)` builds a required field descriptor. -/
def required (validators : List ValidatorFn) : FieldDesc := field true validators

/-- Line 62: `optional(...)` builds an optional field descriptor. -/
def optional (validators : List ValidatorFn) : FieldDesc := field false validators

/-- A record (the `data` object of a model instance): an association list
of property name to value, in insertion order. -/
abbrev Record := List (String × JSValue)

/-- JavaScript property read `provided[k]`: the stored value when the key
is present, `undefined` otherwise. -/
def getProp (r : Record) (k : String) : JSValue :=
  match r.find? (fun p => p.1 == k) with
  | some p => p.2
  | none => .undefined

/-- The per-field body of the `expected.forEach` loop (lines 11–19): the
final value of `err[k]`.  If the value is falsy and the field required,
`err[k] = 'missing'` and the validators are skipped; otherwise every
validator runs in declared order and each caught exception overwrites
`err[k]` with its message (a later success does not clear it). -/
def fieldError (fd : FieldDesc) (v : JSValue) : Option String :=
  if falsy v && fd.required then some "missing"
  else
    fd.validators.foldl
      (fun err vf =>
        match vf v with
        | some m => some m
        | none => err)
      none

/-- Lines 4–23: `model.prototype.errors`.  A model definition is the
ordered association list of field name to descriptor (`Object.keys`
iterates string keys in insertion order); each field whose final
`err[k]` is truthy (a non-empty string, line 20) pushes the entry
`(name, kind)` onto the result. -/
def errors (fields : List (String × FieldDesc)) (data : Record) :
    List (String × String) :=
  fields.foldl
    (fun errs kf =>
      match fieldError kf.2 (getProp data kf.1) with
      | some m => if m.isEmpty then errs else errs ++ [(kf.1, m)]
      | none => errs)
    []

/-! ## The declared models (lines 64–88) -/

/-- Lines 68–74: `Assertion.prototype.fields`. -/
def Assertion.fields : List (String × FieldDesc) :=
  [("recipient", required [Email]),
   ("evidence", optional [URL]),
   ("expires", optional [ISODate]),
   ("issued_at", optional [ISODate])]

/-- Lines 75–82: `Badge.prototype.fields`. -/
def Badge.fields : List (String × FieldDesc) :=
  [("version", required [RegEx versionRegex]),
   ("name", required [MaxLength 128]),
   ("description", required [MaxLength 128]),
   ("image", required [URL]),
   ("criteria", required [URL])]

/-- Lines 83–88: `Issuer.prototype.fields`. -/
def Issuer.fields : List (String × FieldDesc) :=
  [("name", required [MaxLength 128]),
   ("org", optional [MaxLength 128]),
   ("contact", optional [Email]),
   ("url", optional [URL])]

/-! ## The public entry point (lines 90–92) -/

/-- The shape of the value returned by `exports.validate`. -/
structure ValidateResult where
  status : String
  error : List (String × String)
deriving DecidableEq

/-- Lines 90–92: `exports.validate(assertion)` ignores its argument and
returns the literal `{ status: 'okay', error: [] }`. -/
def validate (assertion : JSValue) : ValidateResult :=
  { status := "okay", error := [] }

/-! ## Characterizations of the evaluation loop -/

/-- One field's contribution to the pushed error list: the entry
`(name, kind)` when the final `err[k]` is a truthy (non-empty) string,
nothing otherwise. -/
def entryOf (data : Record) (kf : String × FieldDesc) :
    Option (String × String) :=
  match fieldError kf.2 (getProp data kf.1) with
  | some m => if m.isEmpty then none else some (kf.1, m)
  | none => none

/-- The `forEach`/push loop of `errors` is the `filterMap` of the
per-field entry function over the declared fields. -/
theorem errors_eq_filterMap (fields : List (String × FieldDesc))
    (data : Record) :
    errors fields data = fields.filterMap (entryOf data) := by
  suffices h : ∀ (fs : List (String × FieldDesc))
      (acc : List (String × String)),
      fs.foldl
        (fun errs kf =>
          match fieldError kf.2 (getProp data kf.1) with
          | some m => if m.isEmpty then errs else errs ++ [(kf.1, m)]
          | none => errs) acc
        = acc ++ fs.filterMap (entryOf data) by
    simpa [errors] using h fields []
  intro fs
  induction fs with
  | nil => intro acc; simp
  | cons kf rest ih =>
    intro acc
    simp only [List.foldl_cons, List.filterMap_cons]
    cases h : fieldError kf.2 (getProp data kf.1) with
    | none => simp [entryOf, h, ih]
    | some m =>
      cases hm : m.isEmpty with
      | true => simp [entryOf, h, hm, ih]
      | false => simp [entryOf, h, hm, ih]

/-- An entry produced for a field carries that field's name. -/
theorem entryOf_key (data : Record) (kf : String × FieldDesc)
    (e : String × String) (h : entryOf data kf = some e) : e.1 = kf.1 := by
  unfold entryOf at h
  cases hf : fieldError kf.2 (getProp data kf.1) with
  | none => rw [hf] at h; cases h
  | some m =>
    rw [hf] at h
    by_cases hm : m.isEmpty = true
    · simp [hm] at h
    · simp [hm] at h
      subst h
      rfl

/-- The message of the last validator in the list that fails on `v`
(searching from the right), if any. -/
def lastFailure (vs : List ValidatorFn) (v : JSValue) : Option String :=
  match vs with
  | [] => none
  | vf :: rest =>
    match lastFailure rest v with
    | some m => some m
    | none => vf v

/-- The overwrite fold of the validator loop computes the last failing
validator's message (keeping the accumulator when none fails). -/
theorem foldl_validators_eq_lastFailure (vs : List ValidatorFn)
    (v : JSValue) (acc : Option String) :
    vs.foldl
        (fun err vf =>
          match vf v with
          | some m => some m
          | none => err) acc
      = match lastFailure vs v with
        | some m => some m
        | none => acc := by
  induction vs generalizing acc with
  | nil => simp [lastFailure]
  | cons vf rest ih =>
    simp only [List.foldl_cons, lastFailure]
    rw [ih]
    cases lastFailure rest v with
    | some m => simp
    | none =>
      cases vf v with
      | some m => simp
      | none => simp

/-- For an optional field the required/falsy branch is never taken, so
the field's final error is exactly the last failing validator's message. -/
theorem fieldError_optional (vs : List ValidatorFn) (v : JSValue) :
    fieldError (optional vs) v = lastFailure vs v := by
  simp only [fieldError, optional, field, Bool.and_false, Bool.false_eq_true,
    if_false]
  rw [foldl_validators_eq_lastFailure]
  cases lastFailure vs v <;> simp

/-- Fields other than `k` contribute no entry keyed `k`. -/
theorem filter_key_nil (data : Record) (fields : List (String × FieldDesc))
    (k : String) (h : ∀ kf ∈ fields, kf.1 ≠ k) :
    (fields.filterMap (entryOf data)).filter (fun e => e.1 == k) = [] := by
  induction fields with
  | nil => simp
  | cons kf rest ih =>
    have hk : kf.1 ≠ k := h kf (List.mem_cons_self kf rest)
    have htail : ∀ kf ∈ rest, kf.1 ≠ k :=
      fun x hx => h x (List.mem_cons_of_mem _ hx)
    simp only [List.filterMap_cons]
    cases he : entryOf data kf with
    | none => exact ih htail
    | some e =>
      have hek : e.1 = kf.1 := entryOf_key data kf e he
      simp only [List.filter_cons]
      have : (e.1 == k) = false := by
        rw [hek]
        exact beq_false_of_ne hk
      rw [this]
      exact ih htail

/-- A required field whose record value is falsy contributes exactly the
entry `(k, "missing")`, and (with distinct field names) it is the only
entry keyed `k` in the whole error list. -/
theorem filter_errors_of_required_falsy (data : Record) (k : String)
    (fd : FieldDesc) :
    ∀ fields : List (String × FieldDesc), (k, fd) ∈ fields →
      (fields.map Prod.fst).Nodup → fd.required = true →
      falsy (getProp data k) = true →
      (fields.filterMap (entryOf data)).filter (fun e => e.1 == k)
        = [(k, "missing")] := by
  intro fields
  induction fields with
  | nil => intro h; cases h
  | cons kf rest ih =>
    intro hmem hnodup hreq hfalsy
    rcases List.mem_cons.mp hmem with heq | hmem'
    · have hkey : kf.1 = k := by rw [← heq]
      have hfd : kf.2 = fd := by rw [← heq]
      have hfe : fieldError kf.2 (getProp data kf.1) = some "missing" := by
        rw [hkey, hfd]
        simp [fieldError, hreq, hfalsy]
      have hnotin : ∀ x ∈ rest, x.1 ≠ k := by
        intro x hx
        have hk' : kf.1 ∉ rest.map Prod.fst :=
          (List.nodup_cons.mp (by simpa using hnodup)).1
        intro hxk
        exact hk' (hkey ▸ hxk ▸ List.mem_map_of_mem Prod.fst hx)
      simp only [List.filterMap_cons, entryOf, hfe]
      rw [if_neg (by decide)]
      simp only [List.filter_cons, hkey, beq_self_eq_true, if_true]
      rw [filter_key_nil data rest k hnotin]
    · have hk : kf.1 ≠ k := by
        have hk' : kf.1 ∉ rest.map Prod.fst :=
          (List.nodup_cons.mp (by simpa using hnodup)).1
        intro hxk
        exact hk' (hxk ▸ List.mem_map_of_mem Prod.fst hmem')
      have htail := ih hmem' (List.nodup_cons.mp (by simpa using hnodup)).2
        hreq hfalsy
      simp only [List.filterMap_cons]
      cases he : entryOf data kf with
      | none => exact htail
      | some e =>
        have hek : e.1 = kf.1 := entryOf_key data kf e he
        simp only [List.filter_cons]
        have hfalse : (e.1 == k) = false := by
          rw [hek]; exact beq_false_of_ne hk
        rw [hfalse]
        exact htail

/-- The error entries' keys form a sublist (hence appear in the order) of
the declared field names. -/
theorem errors_keys_sublist (fields : List (String × FieldDesc))
    (data : Record) :
    ((errors fields data).map Prod.fst).Sublist (fields.map Prod.fst) := by
  rw [errors_eq_filterMap]
  induction fields with
  | nil => simp
  | cons kf rest ih =>
    simp only [List.filterMap_cons, List.map_cons]
    cases he : entryOf data kf with
    | none => exact ih.cons kf.1
    | some e =>
      have hek : e.1 = kf.1 := entryOf_key data kf e he
      simp only [List.map_cons]
      rw [hek]
      exact ih.cons₂ kf.1

/-- Every entry in the error list is justified: its field is declared and
its kind is that field's recorded (truthy) failure. -/
theorem errors_mem_sound (data : Record) (k m : String) :
    ∀ fields : List (String × FieldDesc), (k, m) ∈ errors fields data →
      ∃ fd, (k, fd) ∈ fields ∧ fieldError fd (getProp data k) = some m ∧
        m ≠ "" := by
  intro fields
  rw [errors_eq_filterMap]
  induction fields with
  | nil => intro h; simp at h
  | cons kf rest ih =>
    intro h
    simp only [List.filterMap_cons] at h
    cases he : entryOf data kf with
    | none =>
      rw [he] at h
      obtain ⟨fd, h1, h2⟩ := ih h
      exact ⟨fd, List.mem_cons_of_mem _ h1, h2⟩
    | some e =>
      rw [he] at h
      rcases List.mem_cons.mp h with heq | hmem
      · unfold entryOf at he
        cases hf : fieldError kf.2 (getProp data kf.1) with
        | none => rw [hf] at he; cases he
        | some m' =>
          rw [hf] at he
          by_cases hm : m'.isEmpty = true
          · simp [hm] at he
          · simp [hm] at he
            subst he
            have hk : k = kf.1 := congrArg Prod.fst heq
            have hm' : m = m' := congrArg Prod.snd heq
            subst hk
            subst hm'
            refine ⟨kf.2, by simp, hf, ?_⟩
            intro hcon
            exact hm (by rw [hcon]; rfl)
      · obtain ⟨fd, h1, h2⟩ := ih hmem
        exact ⟨fd, List.mem_cons_of_mem _ h1, h2⟩

/-- With distinct declared field names the error list has at most one
entry per field: its keys are themselves distinct. -/
theorem errors_keys_nodup (fields : List (String × FieldDesc))
    (data : Record) (h : (fields.map Prod.fst).Nodup) :
    ((errors fields data).map Prod.fst).Nodup :=
  List.Nodup.sublist (errors_keys_sublist fields data) h

/-! ## Claims -/

/-- C1: the public entry point `validate` is a constant function — for
every input value (undefined, null, or any record, including ones that
fail every model) it returns exactly `{status: "okay", error: []}`; in
particular it never consults the model evaluation procedure, since its
result does not depend on the input at all. -/
theorem claim_C1 (a : JSValue) :
    validate a = { status := "okay", error := [] } ∧
    validate a = validate JSValue.undefined :=
  ⟨rfl, rfl⟩

/-- C2 counterexample: evaluating the Assertion model against
`{recipient: "b@example.com"}` does not return an empty ErrorList — the
optional fields' validators run on the absent values and fail. -/
theorem claim_C2_counterexample :
    ¬ (errors Assertion.fields [("recipient", JSValue.str "b@example.com")]
        = []) := by decide

/-- C2 amended: evaluating the Assertion model against
`{recipient: "b@example.com"}` returns the three-entry ErrorList
`[evidence ↦ regexp, expires ↦ isodate, issued_at ↦ isodate]`: the
required recipient passes its Email validator, but each optional absent
field still has its validators run against `undefined`, and they fail. -/
theorem claim_C2_amended :
    errors Assertion.fields [("recipient", JSValue.str "b@example.com")]
      = [("evidence", "regexp"), ("expires", "isodate"),
         ("issued_at", "isodate")] := by decide

/-- C3 counterexample: evaluating the Assertion model against an empty
record produces an entry for the optional field `evidence`, so the
ErrorList is not made of missing-entries for required fields only. -/
theorem claim_C3_counterexample :
    ("evidence", optional [URL]) ∈ Assertion.fields ∧
    ("evidence", "regexp") ∈ errors Assertion.fields [] :=
  ⟨List.mem_cons_of_mem _ (List.mem_cons_self _ _), by decide⟩

/-- C3 amended: evaluating an empty record yields one `missing` entry per
required field, but optional fields' validators still run against the
absent value and contribute entries of their own when they fail: Badge
(all five fields required) yields exactly the five missing entries, while
Assertion and Issuer additionally report their optional fields. -/
theorem claim_C3_amended :
    errors Assertion.fields []
      = [("recipient", "missing"), ("evidence", "regexp"),
         ("expires", "isodate"), ("issued_at", "isodate")] ∧
    errors Badge.fields []
      = [("version", "missing"), ("name", "missing"),
         ("description", "missing"), ("image", "missing"),
         ("criteria", "missing")] ∧
    errors Issuer.fields []
      = [("name", "missing"), ("org", typeErrorUndefinedLength),
         ("contact", "regexp"), ("url", "regexp")] :=
  ⟨by decide, by decide, by decide⟩

/-- C4: for every model and record, a required field whose record value
is falsy (absent, empty string, zero, false) contributes exactly the one
entry `(field, "missing")` — and with distinct field names it is the only
entry for that field — and its validators are not consulted: the field's
error is `missing` whatever validator list the descriptor carries. -/
theorem claim_C4 (fields : List (String × FieldDesc)) (data : Record)
    (k : String) (fd : FieldDesc) (hmem : (k, fd) ∈ fields)
    (hnodup : (fields.map Prod.fst).Nodup) (hreq : fd.required = true)
    (hfalsy : falsy (getProp data k) = true) :
    (errors fields data).filter (fun e => e.1 == k) = [(k, "missing")] ∧
    ∀ vs : List ValidatorFn,
      fieldError (field true vs) (getProp data k) = some "missing" := by
  constructor
  · rw [errors_eq_filterMap]
    exact filter_errors_of_required_falsy data k fd fields hmem hnodup
      hreq hfalsy
  · intro vs
    simp [fieldError, field, hfalsy]

/-- C4 witness: the required `recipient` field of the Assertion model,
evaluated against the empty record, yields exactly the missing entry. -/
theorem claim_C4_witness :
    (errors Assertion.fields []).filter (fun e => e.1 == "recipient")
      = [("recipient", "missing")] :=
  (claim_C4 Assertion.fields [] "recipient" (required [Email])
    (List.mem_cons_self _ _) (by decide) rfl (by decide)).1

/-- C5: an optional field whose record value is falsy still has every
one of its validators run against that value — its error is exactly the
last failing validator's message, with no short-circuit — and in
particular an optional URL field set to the empty string produces a
validator-failure entry. -/
theorem claim_C5 (vs : List ValidatorFn) (v : JSValue)
    (hfalsy : falsy v = true) :
    fieldError (optional vs) v = lastFailure vs v ∧
    errors [("evidence", optional [URL])] [("evidence", JSValue.str "")]
      = [("evidence", "regexp")] :=
  ⟨fieldError_optional vs v, by decide⟩

/-- C5 witness: the optional URL field applied to the (falsy) empty
string runs its validator and records its failure. -/
theorem claim_C5_witness :
    fieldError (optional [URL]) (JSValue.str "")
      = lastFailure [URL] (JSValue.str "") :=
  (claim_C5 [URL] (JSValue.str "") (by decide)).1

/-- C6: for a field whose value is present (not falsy), validators run in
declared order and only the last failing validator's kind survives: with
two validators that both fail, the field's single entry carries the
second validator's kind. -/
theorem claim_C6 (req : Bool) (f1 f2 : ValidatorFn) (v : JSValue)
    (m1 m2 : String) (hv : falsy v = false) (h1 : f1 v = some m1)
    (h2 : f2 v = some m2) :
    fieldError (field req [f1, f2]) v = some m2 ∧
    (m2.isEmpty = false →
      errors [("k", field req [f1, f2])] [("k", v)] = [("k", m2)]) := by
  have hfe : fieldError (field req [f1, f2]) v = some m2 := by
    simp [fieldError, field, hv, h1, h2]
  refine ⟨hfe, fun hm2 => ?_⟩
  simp [errors, getProp, hfe, hm2]

/-- C6 witness: on the string "x" both the Email validator (kind
`regexp`) and the ISODate validator (kind `isodate`) fail; the field's
error is the second kind, `isodate`. -/
theorem claim_C6_witness :
    fieldError (field true [Email, ISODate]) (JSValue.str "x")
      = some "isodate" :=
  (claim_C6 true Email ISODate (JSValue.str "x") "regexp" "isodate"
    (by decide) (by decide) (by decide)).1

/-- C7: for every model and record, the ErrorList's keys appear in the
field-declaration order (they form a sublist of the declared names),
every entry is justified by a recorded truthy failure of its declared
field, and — when the declared names are distinct — the keys are
distinct, so there is at most one entry per declared field. -/
theorem claim_C7 (fields : List (String × FieldDesc)) (data : Record) :
    ((errors fields data).map Prod.fst).Sublist (fields.map Prod.fst) ∧
    (∀ k m, (k, m) ∈ errors fields data →
      ∃ fd, (k, fd) ∈ fields ∧
        fieldError fd (getProp data k) = some m ∧ m ≠ "") ∧
    ((fields.map Prod.fst).Nodup →
      ((errors fields data).map Prod.fst).Nodup) :=
  ⟨errors_keys_sublist fields data,
   fun k m h => errors_mem_sound data k m fields h,
   fun h => errors_keys_nodup fields data h⟩

/-- C7 witness: the entry `(recipient, missing)` of the Assertion model
on the empty record is justified by a declared field's recorded failure. -/
theorem claim_C7_witness :
    ∃ fd, ("recipient", fd) ∈ Assertion.fields ∧
      fieldError fd (getProp ([] : Record) "recipient") = some "missing" ∧
      "missing" ≠ "" :=
  (claim_C7 Assertion.fields []).2.1 "recipient" "missing" (by decide)

/-- C8: the URL validator accepts exactly the strings matching the
absolute http/https regex or the root-relative regex (trying the
absolute one first); when both fail the propagated failure kind is
`regexp`; concretely it accepts "http://example.com/", "/relative/path"
and "https://example.com:443/" and rejects "ftp://example.com/path". -/
theorem claim_C8 :
    (∀ s : String, URL (JSValue.str s) = none ↔
      (fq_url.test s = true ∨ local_url.test s = true)) ∧
    (∀ s : String, fq_url.test s = false → local_url.test s = false →
      URL (JSValue.str s) = some "regexp") ∧
    URL (JSValue.str "http://example.com/") = none ∧
    URL (JSValue.str "/relative/path") = none ∧
    URL (JSValue.str "https://example.com:443/") = none ∧
    URL (JSValue.str "ftp://example.com/path") = some "regexp" := by
  refine ⟨fun s => ?_, fun s hf hl => ?_,
    by decide, by decide, by decide, by decide⟩
  · unfold URL RegEx jsToString
    cases hf : fq_url.test s <;> cases hl : local_url.test s <;>
      simp [hf, hl]
  · unfold URL RegEx jsToString
    simp [hf, hl]

/-- C8 witness: a string rejected by both regex shapes propagates the
relative shape's `regexp` failure. -/
theorem claim_C8_witness :
    URL (JSValue.str "ftp://example.com/path") = some "regexp" :=
  claim_C8.2.1 "ftp://example.com/path" (by decide) (by decide)

/-- C9 counterexample: the Email validator is not case-insensitive — it
accepts "b@example.com" but rejects the upper-cased "B@EXAMPLE.COM", so
acceptance is not invariant under changing the letters' case. -/
theorem claim_C9_counterexample :
    ¬ (Email (JSValue.str "B@EXAMPLE.COM") = none ↔
        Email (JSValue.str "b@example.com") = none) := by decide

/-- C9 amended: the Email validator is case-sensitive (its regex has no
ignore-case flag and its character classes hold only lowercase letters):
it accepts "b@example.com" and rejects "B@EXAMPLE.COM" with kind
`regexp`. -/
theorem claim_C9_amended :
    Email (JSValue.str "b@example.com") = none ∧
    Email (JSValue.str "B@EXAMPLE.COM") = some "regexp" :=
  ⟨by decide, by decide⟩

/-- C10: every failure a validator produces — whatever its message, not
only the four documented kinds — is caught by the evaluation loop and
recorded as the field's error; in particular `MaxLength` applied to
`undefined` (a value with no length) fails with the `TypeError` message,
which the Issuer model records for its optional `org` field, and that
message lies outside the documented four-kind taxonomy. -/
theorem claim_C10 :
    (∀ (vf : ValidatorFn) (v : JSValue) (m : String), vf v = some m →
      fieldError (optional [vf]) v = some m) ∧
    MaxLength 128 JSValue.undefined = some typeErrorUndefinedLength ∧
    errors Issuer.fields [("name", JSValue.str "x")]
      = [("org", typeErrorUndefinedLength), ("contact", "regexp"),
         ("url", "regexp")] ∧
    typeErrorUndefinedLength ∉
      (["missing", "regexp", "isodate", "length"] : List String) := by
  refine ⟨fun vf v m h => ?_, by decide, by decide, by decide⟩
  simp [fieldError, optional, field, h]

/-- C10 witness: the `TypeError` thrown by `MaxLength 128` on `undefined`
is caught and recorded as the field's error. -/
theorem claim_C10_witness :
    fieldError (optional [MaxLength 128]) JSValue.undefined
      = some typeErrorUndefinedLength :=
  claim_C10.1 (MaxLength 128) JSValue.undefined typeErrorUndefinedLength
    (by decide)

end OpenBadges
